import Mathlib

/-!
Verification of the FilmForge story-writing assistant's persisted-state
protocol (`project_manager.py`, `config.py`, `fastapi_app.py`,
`image_generator.py`, `groq_client.py`).

Stored project documents are JSON; we embed them as a small JSON value
type whose objects are insertion-ordered key/value sequences, exactly the
shape Python dictionaries preserve through `json.dump`/`json.load`.
-/

mutual
/-- JSON values as produced by `json.load`.  Objects keep insertion order,
matching Python dictionaries. -/
inductive Json where
  | str : String → Json
  | num : Int → Json
  | bool : Bool → Json
  | null : Json
  | arr : JArr → Json
  | obj : JObj → Json
deriving DecidableEq

/-- A JSON array (Python list). -/
inductive JArr where
  | nil : JArr
  | cons : Json → JArr → JArr
deriving DecidableEq

/-- A JSON object (Python dict): insertion-ordered bindings. -/
inductive JObj where
  | nil : JObj
  | cons : String → Json → JObj → JObj
deriving DecidableEq
end

/-- Array literal helper. -/
def jarr : List Json → JArr
  | [] => .nil
  | v :: rest => .cons v (jarr rest)

/-- Object literal helper. -/
def jobj : List (String × Json) → JObj
  | [] => .nil
  | (k, v) :: rest => .cons k v (jobj rest)

/-- The elements of a JSON array as a Lean list. -/
def JArr.toList : JArr → List Json
  | .nil => []
  | .cons v rest => v :: rest.toList

/-- `d[k]` lookup in a Python dict (keys are unique, so first match). -/
def lookupKey : JObj → String → Option Json
  | .nil, _ => none
  | .cons k v rest, key => if k == key then some v else lookupKey rest key

/-- `d[k] = v` assignment in a Python dict: replaces the binding in place
when the key exists, otherwise appends it at the end (also the behaviour
of `setdefault` on a miss). -/
def setKey : JObj → String → Json → JObj
  | .nil, key, v => .cons key v .nil
  | .cons k w rest, key, v =>
      if k == key then .cons key v rest else .cons k w (setKey rest key v)

/-- `k in d` for a Python dict. -/
def hasKey : JObj → String → Bool
  | .nil, _ => false
  | .cons k _ rest, key => k == key || hasKey rest key

/-- All keys distinct (true of every dict that Python can actually build). -/
def uniqKeys : JObj → Bool
  | .nil => true
  | .cons k _ rest => !hasKey rest k && uniqKeys rest

/-- `merge_dict(source, destination)` from `project_manager.py` lines 65-84:
for each `key, value` of `source`, if `value` is a dict, fetch
`destination.setdefault(key, {})`, overwrite it with `{}` when it is not a
dict, and recurse; otherwise insert `value` only when `key` is absent,
except that a list `value` whose stored counterpart is not a list
overwrites the stored value with the EMPTY list. -/
def merge_dict : JObj → JObj → JObj
  | .nil, dest => dest
  | .cons key (Json.obj srcObj) rest, dest =>
      let node : JObj :=
        match lookupKey dest key with
        | some (Json.obj o) => o
        | some _ => .nil
        | none => .nil
      merge_dict rest (setKey dest key (Json.obj (merge_dict srcObj node)))
  | .cons key (Json.arr a) rest, dest =>
      let dest' :=
        match lookupKey dest key with
        | none => setKey dest key (Json.arr a)
        | some (Json.arr _) => dest
        | some _ => setKey dest key (Json.arr .nil)
      merge_dict rest dest'
  | .cons key v rest, dest =>
      let dest' :=
        match lookupKey dest key with
        | none => setKey dest key v
        | some _ => dest
      merge_dict rest dest'

/-- `DEFAULT_PROJECT_STATE` from `config.py` lines 16-26. -/
def default_project_state : JObj :=
  jobj
  [ ("project_name", Json.str "Untitled"),
    ("cleaned_name", Json.str "untitled"),
    ("current_phase", Json.str "Concept"),
    ("concept", Json.obj (jobj [
      ("seed_idea", Json.str ""),
      ("generated_concepts_md", Json.str ""),
      ("chosen_logline", Json.str ""),
      ("chosen_framework", Json.str "Three-Act Structure"),
      ("chosen_theme", Json.str ""),
      ("chosen_conflict", Json.str ""),
      ("synopsis_md", Json.str ""),
      ("final_synopsis", Json.str "") ])),
    ("characters", Json.obj .nil),
    ("script", Json.obj (jobj [
      ("outline_md", Json.str ""),
      ("full_script_content", Json.str ""),
      ("analysis_md", Json.str "") ])),
    ("pre_production", Json.obj (jobj [
      ("moodboard_ideas_md", Json.str ""),
      ("storyboard_ideas_md", Json.str ""),
      ("moodboard_images", Json.arr .nil),
      ("storyboard_images", Json.arr .nil) ])),
    ("last_saved", Json.null),
    ("log", Json.arr (jarr [Json.str "Project state initialized."])) ]

/-- Python slice `l[-n:]`: the last `n` elements (the whole list when it is
shorter). -/
def takeLast (n : Nat) (l : List α) : List α :=
  l.drop (l.length - n)

/-! ## Display-name normalisation (ASCII fragment of the Python string ops)

`_get_state_file_path` and `create_project` derive the cleaned name with
`display.strip().replace(" ", "_").lower()`.  Display names are embedded as
`List Char`; the three Python operations are modelled character-for-character
on the ASCII range. -/

/-- The ASCII characters removed by Python's default `str.strip()`:
space, tab, newline, carriage return, vertical tab, form feed. -/
def isWs (c : Char) : Bool :=
  c.toNat = 32 || c.toNat = 9 || c.toNat = 10 || c.toNat = 13 ||
  c.toNat = 11 || c.toNat = 12

/-- `str.strip()`: drop leading and trailing whitespace. -/
def pyStrip (l : List Char) : List Char :=
  ((l.dropWhile isWs).reverse.dropWhile isWs).reverse

/-- One character of `str.replace(" ", "_")`. -/
def replChar (c : Char) : Char :=
  if c = ' ' then '_' else c

/-- `str.replace(" ", "_")`. -/
def replSpaces (l : List Char) : List Char :=
  l.map replChar

/-- One character of `str.lower()` on the ASCII range: `A`-`Z` maps to
`a`-`z`, everything else is unchanged. -/
def lowerChar (c : Char) : Char :=
  if 65 ≤ c.toNat ∧ c.toNat ≤ 90 then Char.ofNat (c.toNat + 32) else c

/-- `str.lower()` (ASCII fragment). -/
def lowerStr (l : List Char) : List Char :=
  l.map lowerChar

/-- `display.strip().replace(" ", "_").lower()`, the cleaned-name
derivation used in `_get_state_file_path` (line 28), `load_project`
(line 62) and `create_project` (line 141, applied to an already
stripped name). -/
def normalizeName (l : List Char) : List Char :=
  lowerStr (replSpaces (pyStrip l))

/-- The same derivation on `String`, for the JSON-level store functions. -/
def normalizeString (s : String) : String :=
  String.mk (normalizeName s.data)

/-- Log message appended by `load_project` line 88. -/
def loadedMsg (name : String) : String :=
  "Project \x27" ++ name ++ "\x27 loaded."

/-- Log message appended by `save_project` line 115. -/
def savedMsg (now : String) : String :=
  "State saved at " ++ now

inductive SaveError where
  | invalidState : SaveError
  | typeError : SaveError
deriving DecidableEq

/-- `save_project` from `project_manager.py` lines 100-125, with the wall
clock passed in as `now`.  Fails when `project_name` is missing or empty
(`ValueError` in the source); sets `last_saved`, trims the log to its last
50 entries, appends the save entry, and returns the document exactly as
written to disk.  A stored `log` that is not a list makes the Python slice
`state.get("log", [])[-50:]` raise, surfaced as `IOError` — modelled as
`typeError`. -/
def save_project (now : String) (state : JObj) : Except SaveError JObj :=
  match lookupKey state "project_name" with
  | some (Json.str name) =>
      if name = "" then .error .invalidState
      else
        let s1 := setKey state "last_saved" (Json.str now)
        match lookupKey s1 "log" with
        | some (Json.arr l) =>
            .ok (setKey s1 "log"
              (Json.arr (jarr (takeLast 50 l.toList ++ [Json.str (savedMsg now)]))))
        | none =>
            .ok (setKey s1 "log" (Json.arr (jarr [Json.str (savedMsg now)])))
        | some _ => .error .typeError
  | _ => .error .invalidState

inductive LoadError where
  | typeError : LoadError
deriving DecidableEq

/-- `load_project` from `project_manager.py` lines 47-97, applied to the
parsed stored document (`NotFound` and JSON-decode failures happen before
this transformation and are not modelled here).  Forces
`project_name`/`cleaned_name` from the requested display name, merges the
stored document against `DEFAULT_PROJECT_STATE`, trims the log to its last
50 entries and appends the loaded entry.  After the merge the `log` key is
always a list, so the `typeError` branch (Python would raise inside the
generic `except` and surface `IOError`) is unreachable. -/
def load_project (name : String) (stored : JObj) : Except LoadError JObj :=
  let s1 := setKey stored "project_name" (Json.str name)
  let s2 := setKey s1 "cleaned_name" (Json.str (normalizeString name))
  let merged := merge_dict default_project_state s2
  match lookupKey merged "log" with
  | some (Json.arr l) =>
      .ok (setKey merged "log"
        (Json.arr (jarr (takeLast 50 l.toList ++ [Json.str (loadedMsg name)]))))
  | _ => .error .typeError

/-! ## Storage paths and `create_project` -/

/-- `PROJECTS_BASE_DIR` from `config.py` line 11. -/
def projectsBaseDir : List Char := "filmforge_projects".data

/-- The components of the state-file path produced by
`_get_state_file_path` (lines 22-29): the project DIRECTORY is named by the
display name verbatim (`_get_project_dir`, line 20), while only the FILE
name uses the cleaned name. -/
def stateFilePath (display : List Char) : List (List Char) :=
  [projectsBaseDir, display, normalizeName display ++ "_state.json".data]

inductive CreateError where
  | invalidName : CreateError
  | alreadyExists : CreateError
deriving DecidableEq

/-- The collision-check half of `create_project` (lines 127-136), against a
filesystem abstracted as the list of existing state-file paths (Linux
`os.path.exists`: exact, case-sensitive comparison).  The name is stripped
first (line 132); an empty or whitespace-only name is `ValueError`
(lines 129-130); an existing state file at the derived path is
`FileExistsError` (lines 135-136).  On success the new state's path is
returned. -/
def create_project_check (fs : List (List (List Char))) (newName : List Char) :
    Except CreateError (List (List Char)) :=
  if pyStrip newName = [] then .error .invalidName
  else
    let path := stateFilePath (pyStrip newName)
    if fs.contains path then .error .alreadyExists
    else .ok path

/-! ## Substring scan and synopsis truncation -/

/-- Python's `needle in hay` substring test, as used by the controller's
`"Error:" in result_md` checks. -/
def strContainsL (hay needle : List Char) : Bool :=
  needle.isPrefixOf hay ||
    match hay with
    | [] => false
    | _ :: t => strContainsL t needle

/-- `"Error:" in s` — the collaborator-failure test applied by every
text-generation endpoint of `fastapi_app.py` (e.g. line 149), as a scan
over the whole string, not a prefix test. -/
def containsErrorMarker (s : String) : Bool :=
  strContainsL s.data "Error:".data

/-- `s.split(sep)[0]`: the prefix of `hay` before the first occurrence of
`needle` (the whole string when `needle` does not occur). -/
def takeBeforeFirst (hay needle : List Char) : List Char :=
  if needle.isPrefixOf hay then []
  else
    match hay with
    | [] => []
    | c :: t => c :: takeBeforeFirst t needle

/-- The twists marker of `fastapi_app.py` line 192. -/
def twistsMarker : List Char := "### Potential Twists".data

/-- Line 192 of `fastapi_app.py`:
`result_md.split("### Potential Twists")[0].strip() if "### Potential Twists" in result_md else result_md`. -/
def finalSynopsisOf (result_md : List Char) : List Char :=
  if strContainsL result_md twistsMarker then
    pyStrip (takeBeforeFirst result_md twistsMarker)
  else result_md

/-! ## Typed project state (the pydantic models of `models.py`) -/

structure CharacterProfile where
  backstory : String := ""
  motivation : String := ""
  flaw : String := ""
deriving DecidableEq

structure CharacterData where
  role : String := ""
  profile : CharacterProfile := {}
  arc_description : String := ""
  relationship_suggestions : String := ""
deriving DecidableEq

structure ConceptState where
  seed_idea : String := ""
  generated_concepts_md : String := ""
  chosen_logline : String := ""
  chosen_framework : String := "Three-Act Structure"
  chosen_theme : String := ""
  chosen_conflict : String := ""
  synopsis_md : String := ""
  final_synopsis : String := ""
deriving DecidableEq

structure ScriptState where
  outline_md : String := ""
  full_script_content : String := ""
  analysis_md : String := ""
deriving DecidableEq

/-- One content part returned by the image collaborator
(`{"type": ..., "content": ...}`). -/
structure ContentPart where
  type : String
  content : String
deriving DecidableEq

structure PreProductionState where
  moodboard_ideas_md : String := ""
  storyboard_ideas_md : String := ""
  moodboard_images : List ContentPart := []
  storyboard_images : List ContentPart := []
deriving DecidableEq

/-- `ProjectState` of `models.py` (the `current_phase` literal kept as a
plain string; characters as the insertion-ordered mapping
name → CharacterData). -/
structure ProjectState where
  project_name : String
  cleaned_name : String
  current_phase : String := "Concept"
  concept : ConceptState := {}
  characters : List (String × CharacterData) := []
  script : ScriptState := {}
  pre_production : PreProductionState := {}
  last_saved : Option String := none
  log : List String := []
deriving DecidableEq

/-- Mapping lookup for the `characters` dictionary (keys unique, first
match). -/
def lookupChar : List (String × CharacterData) → String → Option CharacterData
  | [], _ => none
  | p :: rest, name => if p.1 == name then some p.2 else lookupChar rest name

/-- Mapping assignment for the `characters` dictionary: replace in place,
or append when new (Python dict semantics). -/
def setChar : List (String × CharacterData) → String → CharacterData →
    List (String × CharacterData)
  | [], name, cd => [(name, cd)]
  | p :: rest, name, cd =>
      if p.1 == name then (name, cd) :: rest else p :: setChar rest name cd

/-- `model_dump()` of a content part. -/
def partToJson (p : ContentPart) : Json :=
  Json.obj (jobj [("type", Json.str p.type), ("content", Json.str p.content)])

/-- `model_dump()` of a character record. -/
def characterToJson (cd : CharacterData) : Json :=
  Json.obj (jobj [
    ("role", Json.str cd.role),
    ("profile", Json.obj (jobj [
      ("backstory", Json.str cd.profile.backstory),
      ("motivation", Json.str cd.profile.motivation),
      ("flaw", Json.str cd.profile.flaw) ])),
    ("arc_description", Json.str cd.arc_description),
    ("relationship_suggestions", Json.str cd.relationship_suggestions) ])

/-- `model_dump()` of the `characters` mapping. -/
def charactersToJson : List (String × CharacterData) → JObj
  | [] => .nil
  | (name, cd) :: rest => .cons name (characterToJson cd) (charactersToJson rest)

/-- `state.model_dump()`: the dictionary handed by the FastAPI layer to
`project_manager.save_project` (`fastapi_app.py` line 67). -/
def stateToJson (st : ProjectState) : JObj :=
  jobj
  [ ("project_name", Json.str st.project_name),
    ("cleaned_name", Json.str st.cleaned_name),
    ("current_phase", Json.str st.current_phase),
    ("concept", Json.obj (jobj [
      ("seed_idea", Json.str st.concept.seed_idea),
      ("generated_concepts_md", Json.str st.concept.generated_concepts_md),
      ("chosen_logline", Json.str st.concept.chosen_logline),
      ("chosen_framework", Json.str st.concept.chosen_framework),
      ("chosen_theme", Json.str st.concept.chosen_theme),
      ("chosen_conflict", Json.str st.concept.chosen_conflict),
      ("synopsis_md", Json.str st.concept.synopsis_md),
      ("final_synopsis", Json.str st.concept.final_synopsis) ])),
    ("characters", Json.obj (charactersToJson st.characters)),
    ("script", Json.obj (jobj [
      ("outline_md", Json.str st.script.outline_md),
      ("full_script_content", Json.str st.script.full_script_content),
      ("analysis_md", Json.str st.script.analysis_md) ])),
    ("pre_production", Json.obj (jobj [
      ("moodboard_ideas_md", Json.str st.pre_production.moodboard_ideas_md),
      ("storyboard_ideas_md", Json.str st.pre_production.storyboard_ideas_md),
      ("moodboard_images", Json.arr (jarr (st.pre_production.moodboard_images.map partToJson))),
      ("storyboard_images", Json.arr (jarr (st.pre_production.storyboard_images.map partToJson))) ])),
    ("last_saved", match st.last_saved with
      | some t => Json.str t
      | none => Json.null),
    ("log", Json.arr (jarr (st.log.map Json.str))) ]

/-! ## Image collaborator (`image_generator.py`) -/

/-- One raw part of a Google GenAI response candidate: a text part, an
inline-data part (whose decoding may fail), or an unrecognised part. -/
inductive RawPart where
  | text : String → RawPart
  | inlineData : String → Bool → RawPart
  | other : RawPart

/-- The per-part processing loop of `generate_image_from_prompt`
(lines 52-78): text parts become `{"type": "text"}` parts, inline data
becomes an `image/<fmt>` part when decodable and an `error`-typed part when
decoding raises, unrecognised parts are skipped with a warning. -/
def processPart : RawPart → Option ContentPart
  | RawPart.text s => some ⟨"text", s⟩
  | RawPart.inlineData data true => some ⟨"image/png", data⟩
  | RawPart.inlineData data false => some ⟨"error", "Failed to process image: " ++ data⟩
  | RawPart.other => none

/-- Result of `generate_image_from_prompt`: either the parts LIST, or the
`{"error": ...}` DICTIONARY the function returns on failure. -/
inductive ImageResult where
  | parts : List ContentPart → ImageResult
  | failure : String → ImageResult

/-- `generate_image_from_prompt` (lines 18-104) abstracted over the
response: `none` models an exception or a response without
candidates/content (both return an error dictionary); otherwise the raw
parts are processed one by one, and an EMPTY processed list is converted to
the error dictionary (lines 82-84).  A non-empty list is returned as-is,
even when every element is an `error`-typed part. -/
def generate_image_from_prompt (response : Option (List RawPart)) : ImageResult :=
  match response with
  | none => .failure "Invalid response structure from Google GenAI."
  | some raws =>
      let result_parts := raws.filterMap processPart
      if result_parts.isEmpty then
        .failure "Image generation returned no content parts."
      else .parts result_parts

/-- The caller-side failure test `"error" in image_parts`
(`fastapi_app.py` lines 442, 480, 510): on the failure DICTIONARY, `in`
checks the keys and finds `"error"`; on a parts LIST, `in` checks list
membership of the string `"error"` among dictionaries, which is never
true — so a list is accepted no matter what parts it holds. -/
def imageCallFailed : ImageResult → Bool
  | .failure _ => true
  | .parts _ => false

/-! ## Controller endpoints (`fastapi_app.py`)

Each endpoint model takes the already-loaded project state and the values
the collaborators would return (the collaborators are opaque; their results
are oracles).  The outcome records the HTTP result, the state handed to
`save_project_state_safe` (`none` when no save happens), and whether each
collaborator was actually invoked, so that "no collaborator call" claims
are statable. -/

/-- Outcome of a text-generation endpoint. -/
structure TextGenOutcome where
  response : Except Nat String
  persisted : Option ProjectState
  collaboratorCalled : Bool

/-- `generate_initial_concepts` (lines 143-157) after the project load:
call the concept agent, reject any result containing `"Error:"` with
HTTP 500 and no state change, otherwise write `concept.seed_idea` and
`concept.generated_concepts_md` and save. -/
def generate_initial_concepts (st : ProjectState) (seed : String)
    (agentResult : String) : TextGenOutcome :=
  if containsErrorMarker agentResult then
    ⟨.error 500, none, true⟩
  else
    let st' := { st with concept := { st.concept with
                   seed_idea := seed,
                   generated_concepts_md := agentResult } }
    ⟨.ok agentResult, some st', true⟩

/-- `save_character_profile` (lines 222-239) after the project load: a new
character is initialised with the request's role and all-default remaining
fields; an existing character keeps its record and only has `role`
overwritten; in both cases `profile` is then overwritten wholesale from the
request, and the state is saved.  `arc_description` and
`relationship_suggestions` of an existing character are left untouched. -/
def save_character_profile (st : ProjectState) (char_name : String)
    (role : String) (profile : CharacterProfile) : ProjectState :=
  let base : CharacterData :=
    match lookupChar st.characters char_name with
    | none => { role := role }
    | some cd => { cd with role := role }
  { st with characters := setChar st.characters char_name ({ base with profile := profile }) }

/-- `generate_character_arc` (lines 241-264) after the project load:
404 when the character is absent; 400 (before any collaborator call) when
the profile's motivation or flaw is empty (the `not char_data.profile`
conjunct of line 250 is always false, a pydantic model being truthy);
500 when the collaborator result contains `"Error:"`; otherwise write
`arc_description` and save. -/
def generate_character_arc (st : ProjectState) (char_name : String)
    (agentResult : String) : TextGenOutcome :=
  match lookupChar st.characters char_name with
  | none => ⟨.error 404, none, false⟩
  | some cd =>
      if cd.profile.motivation = "" ∨ cd.profile.flaw = "" then
        ⟨.error 400, none, false⟩
      else if containsErrorMarker agentResult then
        ⟨.error 500, none, true⟩
      else
        let cd' : CharacterData := { cd with arc_description := agentResult }
        let st' := { st with characters := setChar st.characters char_name cd' }
        ⟨.ok agentResult, some st', true⟩

/-- Outcome of a two-phase (text then image) generation endpoint. -/
structure ImageGenOutcome where
  response : Except Nat (List ContentPart)
  persisted : Option ProjectState
  textCalled : Bool
  imageCalled : Bool

/-- `generate_moodboard_ideas_and_images` (lines 413-452) after the project
load: 400 when theme, seed idea and final synopsis are all empty; a text
result containing `"Error:"` stops with 500 before the image collaborator
runs; an image result failing the `"error" in image_parts` test stops with
500 before any state change; otherwise both `moodboard_ideas_md` and
`moodboard_images` are written and the state saved. -/
def generate_moodboard_ideas_and_images (st : ProjectState)
    (textResult : String) (imageResult : ImageResult) : ImageGenOutcome :=
  if st.concept.chosen_theme = "" ∧ st.concept.seed_idea = "" ∧
      st.concept.final_synopsis = "" then
    ⟨.error 400, none, false, false⟩
  else if containsErrorMarker textResult then
    ⟨.error 500, none, true, false⟩
  else
    match imageResult with
    | .failure _ => ⟨.error 500, none, true, true⟩
    | .parts ps =>
        let st' := { st with pre_production := { st.pre_production with
                       moodboard_ideas_md := textResult,
                       moodboard_images := ps } }
        ⟨.ok ps, some st', true, true⟩

/-- `generate_storyboard_ideas_and_images` (lines 455-490) after the
project load: 400 when the request's scene text is whitespace-only; then
the same two-phase structure as the moodboard endpoint, writing
`storyboard_ideas_md` and `storyboard_images`. -/
def generate_storyboard_ideas_and_images (st : ProjectState)
    (scene_text : String) (textResult : String) (imageResult : ImageResult) :
    ImageGenOutcome :=
  if pyStrip scene_text.data = [] then
    ⟨.error 400, none, false, false⟩
  else if containsErrorMarker textResult then
    ⟨.error 500, none, true, false⟩
  else
    match imageResult with
    | .failure _ => ⟨.error 500, none, true, true⟩
    | .parts ps =>
        let st' := { st with pre_production := { st.pre_production with
                       storyboard_ideas_md := textResult,
                       storyboard_images := ps } }
        ⟨.ok ps, some st', true, true⟩


/-- What `merge_dict` leaves at one key, as a function of the schema value
and the stored value: recursive merge for dicts (against `{}` when the
stored value is absent or not a dict), the stored list kept for lists, the
EMPTY list on a list/non-list conflict, insertion of the default when the
key is absent, and the stored value kept otherwise. -/
def mergeValueAt : Json → Option Json → Json
  | Json.obj o, some (Json.obj d0) => Json.obj (merge_dict o d0)
  | Json.obj o, _ => Json.obj (merge_dict o .nil)
  | Json.arr a, none => Json.arr a
  | Json.arr _, some (Json.arr b) => Json.arr b
  | Json.arr _, some _ => Json.arr .nil
  | v, none => v
  | _, some w => w

/-- A stored object that already has every key of the schema with matching
container types, recursively. -/
def conforms : JObj → JObj → Bool
  | .nil, _ => true
  | .cons key v rest, dest =>
      (match v with
       | Json.obj so =>
           (match lookupKey dest key with
            | some (Json.obj o) => conforms so o
            | _ => false)
       | Json.arr _ =>
           (match lookupKey dest key with
            | some (Json.arr _) => true
            | _ => false)
       | _ =>
           (match lookupKey dest key with
            | some _ => true
            | none => false)) && conforms rest dest

/-- A sequence of save operations on one project, each persisting the
document returned by the previous save (the document is left unchanged when
a save fails). -/
def save_many (times : List String) (d : JObj) : JObj :=
  times.foldl (fun d t =>
    match save_project t d with
    | .ok s => s
    | .error _ => d) d

/-- The number of entries under the `log` key (0 when absent or not a
list). -/
def logLenOf (d : JObj) : Nat :=
  match lookupKey d "log" with
  | some (Json.arr l) => l.toList.length
  | _ => 0

deriving instance DecidableEq for Except
deriving instance DecidableEq for ImageResult

/-! ## Dictionary lemmas -/

/-- Single-motive structural induction for `JObj` (the mutual recursor has
one motive per type of the mutual block, which the `induction` tactic
cannot use directly). -/
theorem JObj.recAux {motive : JObj → Prop} (hnil : motive .nil)
    (hcons : ∀ k v rest, motive rest → motive (.cons k v rest)) : ∀ d, motive d :=
  fun d =>
    match d with
    | .nil => hnil
    | .cons k v rest => hcons k v rest (JObj.recAux hnil hcons rest)

theorem lookupKey_setKey_self (d : JObj) (k : String) (v : Json) :
    lookupKey (setKey d k v) k = some v := by
  induction d using JObj.recAux with
  | hnil => simp [setKey, lookupKey]
  | hcons k0 w rest ih =>
      by_cases h : k0 = k
      · simp [setKey, lookupKey, h]
      · simp [setKey, lookupKey, h, ih]

theorem lookupKey_setKey_ne (d : JObj) (k : String) (v : Json) (k' : String)
    (h : k' ≠ k) : lookupKey (setKey d k v) k' = lookupKey d k' := by
  have h' : k ≠ k' := Ne.symm h
  induction d using JObj.recAux with
  | hnil => simp [setKey, lookupKey, h']
  | hcons k0 w rest ih =>
      by_cases h0 : k0 = k
      · subst h0
        simp [setKey, lookupKey, h']
      · by_cases h1 : k0 = k'
        · simp [setKey, lookupKey, h0, h1, h]
        · simp [setKey, lookupKey, h0, h1, ih]

theorem merge_dict_lookup_of_not_hasKey (k : String) (src : JObj) :
    ∀ dest, hasKey src k = false →
      lookupKey (merge_dict src dest) k = lookupKey dest k := by
  induction src using JObj.recAux with
  | hnil => intro dest h; simp [merge_dict]
  | hcons key v rest ih =>
      intro dest h
      simp only [hasKey, Bool.or_eq_false_iff, beq_eq_false_iff_ne, ne_eq] at h
      have hne : k ≠ key := fun hh => h.1 hh.symm
      cases v with
      | obj srcObj =>
          simp only [merge_dict]
          rw [ih _ h.2, lookupKey_setKey_ne _ _ _ _ hne]
      | arr a =>
          simp only [merge_dict]
          rcases hl : lookupKey dest key with _ | w
          · rw [ih _ h.2, lookupKey_setKey_ne _ _ _ _ hne]
          · cases w <;>
              simp only [hl] <;>
              rw [ih _ h.2] <;>
              first
                | rfl
                | rw [lookupKey_setKey_ne _ _ _ _ hne]
      | str s =>
          simp only [merge_dict]
          rcases hl : lookupKey dest key with _ | w
          · rw [ih _ h.2, lookupKey_setKey_ne _ _ _ _ hne]
          · simp only [hl]; rw [ih _ h.2]
      | num n =>
          simp only [merge_dict]
          rcases hl : lookupKey dest key with _ | w
          · rw [ih _ h.2, lookupKey_setKey_ne _ _ _ _ hne]
          · simp only [hl]; rw [ih _ h.2]
      | bool b =>
          simp only [merge_dict]
          rcases hl : lookupKey dest key with _ | w
          · rw [ih _ h.2, lookupKey_setKey_ne _ _ _ _ hne]
          · simp only [hl]; rw [ih _ h.2]
      | null =>
          simp only [merge_dict]
          rcases hl : lookupKey dest key with _ | w
          · rw [ih _ h.2, lookupKey_setKey_ne _ _ _ _ hne]
          · simp only [hl]; rw [ih _ h.2]

theorem merge_dict_lookup_eq (k : String) (src : JObj) :
    ∀ dest (v : Json), uniqKeys src = true → lookupKey src k = some v →
      lookupKey (merge_dict src dest) k = some (mergeValueAt v (lookupKey dest k)) := by
  induction src using JObj.recAux with
  | hnil => intro dest v _ hk; simp [lookupKey] at hk
  | hcons key v0 rest ih =>
      intro dest v hu hk
      simp only [uniqKeys, Bool.and_eq_true, Bool.not_eq_true'] at hu
      by_cases hkey : key = k
      · subst hkey
        simp only [lookupKey, beq_self_eq_true, if_true, Option.some.injEq] at hk
        subst hk
        cases v0 with
        | obj srcObj =>
            simp only [merge_dict]
            rw [merge_dict_lookup_of_not_hasKey _ _ _ hu.1,
              lookupKey_setKey_self]
            rcases hl : lookupKey dest key with _ | w
            · simp [mergeValueAt]
            · cases w <;> simp [mergeValueAt]
        | arr a =>
            simp only [merge_dict]
            rcases hl : lookupKey dest key with _ | w
            · rw [merge_dict_lookup_of_not_hasKey _ _ _ hu.1,
                lookupKey_setKey_self]
              simp [mergeValueAt]
            · cases w <;>
                simp only [hl] <;>
                rw [merge_dict_lookup_of_not_hasKey _ _ _ hu.1] <;>
                first
                  | (rw [hl]; simp [mergeValueAt])
                  | (rw [lookupKey_setKey_self]; simp [mergeValueAt])
        | str s =>
            simp only [merge_dict]
            rcases hl : lookupKey dest key with _ | w
            · rw [merge_dict_lookup_of_not_hasKey _ _ _ hu.1,
                lookupKey_setKey_self]
              simp [mergeValueAt]
            · simp only [hl]
              rw [merge_dict_lookup_of_not_hasKey _ _ _ hu.1, hl]
              cases w <;> simp [mergeValueAt]
        | num n =>
            simp only [merge_dict]
            rcases hl : lookupKey dest key with _ | w
            · rw [merge_dict_lookup_of_not_hasKey _ _ _ hu.1,
                lookupKey_setKey_self]
              simp [mergeValueAt]
            · simp only [hl]
              rw [merge_dict_lookup_of_not_hasKey _ _ _ hu.1, hl]
              cases w <;> simp [mergeValueAt]
        | bool b =>
            simp only [merge_dict]
            rcases hl : lookupKey dest key with _ | w
            · rw [merge_dict_lookup_of_not_hasKey _ _ _ hu.1,
                lookupKey_setKey_self]
              simp [mergeValueAt]
            · simp only [hl]
              rw [merge_dict_lookup_of_not_hasKey _ _ _ hu.1, hl]
              cases w <;> simp [mergeValueAt]
        | null =>
            simp only [merge_dict]
            rcases hl : lookupKey dest key with _ | w
            · rw [merge_dict_lookup_of_not_hasKey _ _ _ hu.1,
                lookupKey_setKey_self]
              simp [mergeValueAt]
            · simp only [hl]
              rw [merge_dict_lookup_of_not_hasKey _ _ _ hu.1, hl]
              cases w <;> simp [mergeValueAt]
      · have hk' : lookupKey rest k = some v := by
          simpa [lookupKey, hkey] using hk
        have hne : k ≠ key := fun hh => hkey hh.symm
        cases v0 with
        | obj srcObj =>
            simp only [merge_dict]
            rw [ih _ _ hu.2 hk', lookupKey_setKey_ne _ _ _ _ hne]
        | arr a =>
            simp only [merge_dict]
            rcases hl : lookupKey dest key with _ | w
            · rw [ih _ _ hu.2 hk', lookupKey_setKey_ne _ _ _ _ hne]
            · cases w <;>
                simp only [hl] <;>
                rw [ih _ _ hu.2 hk'] <;>
                first
                  | rfl
                  | rw [lookupKey_setKey_ne _ _ _ _ hne]
        | str s =>
            simp only [merge_dict]
            rcases hl : lookupKey dest key with _ | w
            · rw [ih _ _ hu.2 hk', lookupKey_setKey_ne _ _ _ _ hne]
            · simp only [hl]; rw [ih _ _ hu.2 hk']
        | num n =>
            simp only [merge_dict]
            rcases hl : lookupKey dest key with _ | w
            · rw [ih _ _ hu.2 hk', lookupKey_setKey_ne _ _ _ _ hne]
            · simp only [hl]; rw [ih _ _ hu.2 hk']
        | bool b =>
            simp only [merge_dict]
            rcases hl : lookupKey dest key with _ | w
            · rw [ih _ _ hu.2 hk', lookupKey_setKey_ne _ _ _ _ hne]
            · simp only [hl]; rw [ih _ _ hu.2 hk']
        | null =>
            simp only [merge_dict]
            rcases hl : lookupKey dest key with _ | w
            · rw [ih _ _ hu.2 hk', lookupKey_setKey_ne _ _ _ _ hne]
            · simp only [hl]; rw [ih _ _ hu.2 hk']

/-! ## Claim C1 -/

/-- C1 (counterexample): the claim says a stored value whose type conflicts
with the schema's expected container type is replaced by the SCHEMA
DEFAULT.  For the `log` field (default `["Project state initialized."]`),
a stored non-list is replaced by the EMPTY list instead — the code writes
`destination[key] = []`, not the default. -/
theorem c1_counterexample :
    lookupKey (merge_dict default_project_state (jobj [("log", Json.num 0)])) "log" =
      some (Json.arr .nil) ∧
    lookupKey default_project_state "log" =
      some (Json.arr (jarr [Json.str "Project state initialized."])) ∧
    Json.arr .nil ≠ Json.arr (jarr [Json.str "Project state initialized."]) :=
  ⟨rfl, rfl, by decide⟩

/-- C1 (amended): for every key `k` bound to `v` in the (duplicate-free)
default schema, the load-time merge (a) inserts the default when the key is
absent from the stored document (for a mapping default, its recursive
default fill); (b) never overwrites a stored value by a default when the
types agree — scalars and sequences are kept verbatim, mappings are merged
recursively so stored subfields survive; (c) on a mapping/non-mapping
conflict discards the stored value in favour of the schema default's
recursive fill; but (d) on a sequence/non-sequence conflict discards the
stored value in favour of the EMPTY sequence, which is the schema default
only when that default is itself empty. -/
theorem c1_theorem (src dest : JObj) (k : String) (hu : uniqKeys src = true) :
    (∀ v, lookupKey src k = some v → (∀ o, v ≠ Json.obj o) →
        lookupKey dest k = none →
        lookupKey (merge_dict src dest) k = some v) ∧
    (∀ o, lookupKey src k = some (Json.obj o) → lookupKey dest k = none →
        lookupKey (merge_dict src dest) k = some (Json.obj (merge_dict o JObj.nil))) ∧
    (∀ v w, lookupKey src k = some v →
        (∀ o, v ≠ Json.obj o) → (∀ a, v ≠ Json.arr a) →
        lookupKey dest k = some w →
        lookupKey (merge_dict src dest) k = some w) ∧
    (∀ a b, lookupKey src k = some (Json.arr a) →
        lookupKey dest k = some (Json.arr b) →
        lookupKey (merge_dict src dest) k = some (Json.arr b)) ∧
    (∀ a w, lookupKey src k = some (Json.arr a) → lookupKey dest k = some w →
        (∀ b, w ≠ Json.arr b) →
        lookupKey (merge_dict src dest) k = some (Json.arr JArr.nil)) ∧
    (∀ o d0, lookupKey src k = some (Json.obj o) →
        lookupKey dest k = some (Json.obj d0) →
        lookupKey (merge_dict src dest) k = some (Json.obj (merge_dict o d0))) ∧
    (∀ o w, lookupKey src k = some (Json.obj o) → lookupKey dest k = some w →
        (∀ d0, w ≠ Json.obj d0) →
        lookupKey (merge_dict src dest) k = some (Json.obj (merge_dict o JObj.nil))) := by
  refine ⟨?_, ?_, ?_, ?_, ?_, ?_, ?_⟩
  · intro v hk hno hd
    rw [merge_dict_lookup_eq k src dest v hu hk, hd]
    cases v with
    | obj o => exact absurd rfl (hno o)
    | str s => rfl
    | num n => rfl
    | bool b => rfl
    | null => rfl
    | arr a => rfl
  · intro o hk hd
    rw [merge_dict_lookup_eq k src dest _ hu hk, hd]
    rfl
  · intro v w hk hno hna hd
    rw [merge_dict_lookup_eq k src dest v hu hk, hd]
    cases v with
    | obj o => exact absurd rfl (hno o)
    | arr a => exact absurd rfl (hna a)
    | str s => rfl
    | num n => rfl
    | bool b => rfl
    | null => rfl
  · intro a b hk hd
    rw [merge_dict_lookup_eq k src dest _ hu hk, hd]
    rfl
  · intro a w hk hd hnb
    rw [merge_dict_lookup_eq k src dest _ hu hk, hd]
    cases w with
    | arr b => exact absurd rfl (hnb b)
    | obj o => rfl
    | str s => rfl
    | num n => rfl
    | bool b => rfl
    | null => rfl
  · intro o d0 hk hd
    rw [merge_dict_lookup_eq k src dest _ hu hk, hd]
    rfl
  · intro o w hk hd hnd
    rw [merge_dict_lookup_eq k src dest _ hu hk, hd]
    cases w with
    | obj d0 => exact absurd rfl (hnd d0)
    | arr a => rfl
    | str s => rfl
    | num n => rfl
    | bool b => rfl
    | null => rfl

/-- C1 (witness): the amended theorem applied to the real default schema,
at the `script` key, against a stored document where `script` is a number
(a mapping/non-mapping conflict): the stored value is discarded and the
schema sub-document recreated from defaults. -/
theorem c1_witness :
    uniqKeys default_project_state = true ∧
    lookupKey (merge_dict default_project_state (jobj [("script", Json.num 3)])) "script" =
      some (Json.obj (merge_dict (jobj [
        ("outline_md", Json.str ""),
        ("full_script_content", Json.str ""),
        ("analysis_md", Json.str "") ]) JObj.nil)) :=
  ⟨by decide,
    (c1_theorem default_project_state (jobj [("script", Json.num 3)]) "script"
        (by decide)).2.2.2.2.2.2 _ (Json.num 3) rfl rfl
      (fun d0 h => Json.noConfusion h)⟩

/-! ## Substring lemmas -/

theorem strContainsL_append (needle : List Char) :
    ∀ x y : List Char, strContainsL (x ++ needle ++ y) needle = true := by
  intro x
  induction x with
  | nil =>
      intro y
      have h : needle.isPrefixOf (needle ++ y) = true :=
        List.isPrefixOf_iff_prefix.2 (List.prefix_append _ _)
      unfold strContainsL
      simp only [List.nil_append]
      rw [h]
      simp
  | cons c x' ih =>
      intro y
      simp only [List.cons_append, strContainsL, List.append_eq]
      rw [ih y]
      simp

theorem strContainsL_iff (hay needle : List Char) :
    strContainsL hay needle = true ↔ ∃ x y, hay = x ++ needle ++ y := by
  constructor
  · intro h
    induction hay with
    | nil =>
        simp only [strContainsL, Bool.or_false] at h
        have := List.prefix_nil.1 ( List.isPrefixOf_iff_prefix.1 h)
        exact ⟨[], [], by simp [this]⟩
    | cons c t ih =>
        simp only [strContainsL, Bool.or_eq_true] at h
        rcases h with h | h
        · rcases List.isPrefixOf_iff_prefix.1 h with ⟨y, hy⟩
          exact ⟨[], y, hy.symm⟩
        · rcases ih h with ⟨x, y, hxy⟩
          exact ⟨c :: x, y, by simp [hxy]⟩
  · rintro ⟨x, y, rfl⟩
    exact strContainsL_append needle x y

theorem takeBeforeFirst_eq (needle suf : List Char) :
    ∀ pre : List Char,
      (∀ i, i < pre.length →
        needle.isPrefixOf ((pre ++ needle ++ suf).drop i) = false) →
      takeBeforeFirst (pre ++ needle ++ suf) needle = pre := by
  intro pre
  induction pre with
  | nil =>
      intro _
      have h : needle.isPrefixOf (needle ++ suf) = true :=
        List.isPrefixOf_iff_prefix.2 (List.prefix_append _ _)
      show takeBeforeFirst (needle ++ suf) needle = []
      unfold takeBeforeFirst
      rw [h]
      rfl
  | cons c pre' ih =>
      intro h
      have h0 : needle.isPrefixOf (c :: (pre' ++ needle ++ suf)) = false := by
        simpa using h 0 (by simp)
      show takeBeforeFirst (c :: (pre' ++ needle ++ suf)) needle = c :: pre'
      unfold takeBeforeFirst
      rw [h0]
      show c :: takeBeforeFirst (pre' ++ needle ++ suf) needle = c :: pre'
      rw [ih (fun i hi => by simpa using h (i + 1) (by simpa using hi))]

/-! ## Claim C8 -/

/-- C8: the derived `final_synopsis` is the synopsis text cut at the FIRST
occurrence of the `"### Potential Twists"` marker and stripped of
surrounding whitespace; without the marker it is the synopsis text
unchanged. -/
theorem c8_theorem (s pre suf : List Char) :
    (strContainsL s twistsMarker = false → finalSynopsisOf s = s) ∧
    (s = pre ++ twistsMarker ++ suf →
      (∀ i, i < pre.length → twistsMarker.isPrefixOf (s.drop i) = false) →
      finalSynopsisOf s = pyStrip pre) := by
  constructor
  · intro h
    unfold finalSynopsisOf
    rw [h]
    rfl
  · rintro rfl h
    unfold finalSynopsisOf
    rw [strContainsL_append twistsMarker pre suf,
      takeBeforeFirst_eq twistsMarker suf pre h]
    rfl

/-- C8 (witness): the spec's example, `"A hero rises.\n### Potential
Twists\n- twist A"` becomes `"A hero rises."`. -/
theorem c8_witness :
    "A hero rises.\n### Potential Twists\n- twist A".data =
      "A hero rises.\n".data ++ twistsMarker ++ "\n- twist A".data ∧
    (∀ i, i < "A hero rises.\n".data.length →
      twistsMarker.isPrefixOf
        ("A hero rises.\n### Potential Twists\n- twist A".data.drop i) = false) ∧
    finalSynopsisOf "A hero rises.\n### Potential Twists\n- twist A".data =
      pyStrip "A hero rises.\n".data ∧
    pyStrip "A hero rises.\n".data = "A hero rises.".data :=
  ⟨by decide, by decide,
    ( c8_theorem "A hero rises.\n### Potential Twists\n- twist A".data
        "A hero rises.\n".data "\n- twist A".data).2 (by decide) (by decide),
    by decide⟩

/-! ## Claim C10 -/

/-- C10: the controller treats a text-generation result as failed — HTTP
500, nothing persisted — exactly when the returned string contains the
substring `"Error:"` ANYWHERE (an arbitrary decomposition
`x ++ "Error:" ++ y`, not only a prefix), so legitimate content containing
the marker is also rejected and discarded. -/
theorem c10_theorem (st : ProjectState) (seed res : String) :
    ((generate_initial_concepts st seed res).response = .error 500 ∧
      (generate_initial_concepts st seed res).persisted = none) ↔
    ∃ x y, res.data = x ++ "Error:".data ++ y := by
  cases h : containsErrorMarker res with
  | true =>
      constructor
      · intro _
        exact (strContainsL_iff res.data "Error:".data).1 h
      · intro _
        unfold generate_initial_concepts
        rw [h]
        exact ⟨rfl, rfl⟩
  | false =>
      constructor
      · intro hc
        exfalso
        unfold generate_initial_concepts at hc
        rw [h] at hc
        exact Except.noConfusion hc.1
      · rintro ⟨x, y, hxy⟩
        have : containsErrorMarker res = true := by
          unfold containsErrorMarker
          rw [hxy]
          exact strContainsL_append _ x y
        rw [this] at h
        exact Bool.noConfusion h

/-! ## Claim C7 -/

/-- C7: generating an arc for a character whose profile has an empty
motivation or an empty flaw fails with HTTP 400, makes no collaborator
call, and persists nothing; a missing character fails with HTTP 404 before
any collaborator call. -/
theorem c7_theorem (st : ProjectState) (char_name agentResult : String) :
    (∀ cd, lookupChar st.characters char_name = some cd →
      (cd.profile.motivation = "" ∨ cd.profile.flaw = "") →
      generate_character_arc st char_name agentResult =
        ⟨.error 400, none, false⟩) ∧
    (lookupChar st.characters char_name = none →
      generate_character_arc st char_name agentResult =
        ⟨.error 404, none, false⟩) := by
  constructor
  · intro cd hcd hempty
    unfold generate_character_arc
    simp only [hcd]
    rw [if_pos hempty]
  · intro hnone
    unfold generate_character_arc
    simp only [hnone]

/-- C7 (witness): the spec scenario — character `"Ava"` with profile
`{motivation: "", flaw: "fear of heights"}` — is rejected with 400, no
collaborator call, no save; and a missing character gives 404. -/
theorem c7_witness :
    lookupChar [("Ava", ⟨"Hero", ⟨"", "", "fear of heights"⟩, "", ""⟩)] "Ava" =
      some ⟨"Hero", ⟨"", "", "fear of heights"⟩, "", ""⟩ ∧
    (CharacterProfile.mk "" "" "fear of heights").motivation = "" ∧
    generate_character_arc
      { project_name := "p", cleaned_name := "p",
        characters := [("Ava", ⟨"Hero", ⟨"", "", "fear of heights"⟩, "", ""⟩)] }
      "Ava" "whatever" = ⟨.error 400, none, false⟩ ∧
    lookupChar [("Ava", ⟨"Hero", ⟨"", "", "fear of heights"⟩, "", ""⟩)] "Zed" = none ∧
    generate_character_arc
      { project_name := "p", cleaned_name := "p",
        characters := [("Ava", ⟨"Hero", ⟨"", "", "fear of heights"⟩, "", ""⟩)] }
      "Zed" "whatever" = ⟨.error 404, none, false⟩ :=
  ⟨by decide, by decide,
    (c7_theorem
        { project_name := "p", cleaned_name := "p",
          characters := [("Ava", ⟨"Hero", ⟨"", "", "fear of heights"⟩, "", ""⟩)] }
        "Ava" "whatever").1 ⟨"Hero", ⟨"", "", "fear of heights"⟩, "", ""⟩
      (by decide) (Or.inl (by decide)),
    by decide,
    (c7_theorem
        { project_name := "p", cleaned_name := "p",
          characters := [("Ava", ⟨"Hero", ⟨"", "", "fear of heights"⟩, "", ""⟩)] }
        "Zed" "whatever").2 (by decide)⟩

/-! ## Claim C6 -/

theorem lookupChar_setChar_self (chars : List (String × CharacterData))
    (name : String) (cd : CharacterData) :
    lookupChar (setChar chars name cd) name = some cd := by
  induction chars with
  | nil => simp [setChar, lookupChar]
  | cons p rest ih =>
      by_cases h : p.1 = name
      · simp [setChar, lookupChar, h]
      · simp [setChar, lookupChar, h, ih]

theorem lookupChar_setChar_ne (chars : List (String × CharacterData))
    (name : String) (cd : CharacterData) (other : String) (h : other ≠ name) :
    lookupChar (setChar chars name cd) other = lookupChar chars other := by
  have h' : name ≠ other := Ne.symm h
  induction chars with
  | nil => simp [setChar, lookupChar, h']
  | cons p rest ih =>
      by_cases h0 : p.1 = name
      · simp [setChar, lookupChar, h0, h']
      · by_cases h1 : p.1 = other
        · simp [setChar, lookupChar, h0, h1, h]
        · simp [setChar, lookupChar, h0, h1, ih]

/-- C6 (counterexample): the claim says a save-character request replaces
the record wholesale, overwriting prior `arc_description` and
`relationship_suggestions` to empty.  On an existing character the code
preserves both: here `"Ava"` keeps arc `"ARC"` and suggestions `"REL"`. -/
theorem c6_counterexample :
    (save_character_profile
        { project_name := "p", cleaned_name := "p",
          characters := [("Ava", ⟨"Hero", ⟨"b", "m", "f"⟩, "ARC", "REL"⟩)] }
        "Ava" "Hero" ⟨"b2", "m2", "f2"⟩).characters =
      [("Ava", ⟨"Hero", ⟨"b2", "m2", "f2"⟩, "ARC", "REL"⟩)] ∧
    ("ARC" : String) ≠ "" :=
  ⟨by decide, by decide⟩

/-- C6 (amended): the save-character operation overwrites exactly `role`
and `profile` from the request.  For an existing character the previously
generated `arc_description` and `relationship_suggestions` are PRESERVED,
not reset; a new character starts with both empty; no other character's
record is touched. -/
theorem c6_theorem (st : ProjectState) (char_name role : String)
    (profile : CharacterProfile) :
    (∀ cd, lookupChar st.characters char_name = some cd →
      lookupChar (save_character_profile st char_name role profile).characters
          char_name =
        some ⟨role, profile, cd.arc_description, cd.relationship_suggestions⟩) ∧
    (lookupChar st.characters char_name = none →
      lookupChar (save_character_profile st char_name role profile).characters
          char_name =
        some ⟨role, profile, "", ""⟩) ∧
    (∀ other, other ≠ char_name →
      lookupChar (save_character_profile st char_name role profile).characters
          other =
        lookupChar st.characters other) := by
  refine ⟨?_, ?_, ?_⟩
  · intro cd hcd
    unfold save_character_profile
    simp only [hcd]
    rw [lookupChar_setChar_self]
  · intro hnone
    unfold save_character_profile
    simp only [hnone]
    rw [lookupChar_setChar_self]
  · intro other hother
    unfold save_character_profile
    cases lookupChar st.characters char_name <;>
      simp only [] <;>
      rw [lookupChar_setChar_ne _ _ _ _ hother]

/-- C6 (witness): the amended behaviour at a concrete existing character:
role and profile replaced, arc and relationship text preserved, and a
bystander character untouched. -/
theorem c6_witness :
    lookupChar [("Ava", ⟨"Hero", ⟨"b", "m", "f"⟩, "ARC", "REL"⟩),
        ("Bo", ⟨"Foil", ⟨"", "", ""⟩, "BARC", "BREL"⟩)] "Ava" =
      some ⟨"Hero", ⟨"b", "m", "f"⟩, "ARC", "REL"⟩ ∧
    lookupChar (save_character_profile
        { project_name := "p", cleaned_name := "p",
          characters := [("Ava", ⟨"Hero", ⟨"b", "m", "f"⟩, "ARC", "REL"⟩),
            ("Bo", ⟨"Foil", ⟨"", "", ""⟩, "BARC", "BREL"⟩)] }
        "Ava" "Lead" ⟨"b2", "m2", "f2"⟩).characters "Ava" =
      some ⟨"Lead", ⟨"b2", "m2", "f2"⟩, "ARC", "REL"⟩ ∧
    lookupChar (save_character_profile
        { project_name := "p", cleaned_name := "p",
          characters := [("Ava", ⟨"Hero", ⟨"b", "m", "f"⟩, "ARC", "REL"⟩),
            ("Bo", ⟨"Foil", ⟨"", "", ""⟩, "BARC", "BREL"⟩)] }
        "Ava" "Lead" ⟨"b2", "m2", "f2"⟩).characters "Bo" =
      some ⟨"Foil", ⟨"", "", ""⟩, "BARC", "BREL"⟩ :=
  ⟨by decide,
    (c6_theorem
        { project_name := "p", cleaned_name := "p",
          characters := [("Ava", ⟨"Hero", ⟨"b", "m", "f"⟩, "ARC", "REL"⟩),
            ("Bo", ⟨"Foil", ⟨"", "", ""⟩, "BARC", "BREL"⟩)] }
        "Ava" "Lead" ⟨"b2", "m2", "f2"⟩).1
      ⟨"Hero", ⟨"b", "m", "f"⟩, "ARC", "REL"⟩ (by decide),
    (c6_theorem
        { project_name := "p", cleaned_name := "p",
          characters := [("Ava", ⟨"Hero", ⟨"b", "m", "f"⟩, "ARC", "REL"⟩),
            ("Bo", ⟨"Foil", ⟨"", "", ""⟩, "BARC", "BREL"⟩)] }
        "Ava" "Lead" ⟨"b2", "m2", "f2"⟩).2.2 "Bo" (by decide) |>.trans (by decide)⟩

/-! ## Claim C4 -/

/-- C4: in a moodboard or storyboard generation whose text phase succeeds
(no `"Error:"` marker) but whose image-collaborator phase fails (the
collaborator returns its error dictionary), the whole operation fails with
HTTP 500 and nothing is persisted: neither the ideas text nor the images
subtree of the stored document is written. -/
theorem c4_theorem (st : ProjectState) (textResult err scene_text : String)
    (htext : containsErrorMarker textResult = false) :
    (¬ (st.concept.chosen_theme = "" ∧ st.concept.seed_idea = "" ∧
        st.concept.final_synopsis = "") →
      generate_moodboard_ideas_and_images st textResult (.failure err) =
        ⟨.error 500, none, true, true⟩) ∧
    (pyStrip scene_text.data ≠ [] →
      generate_storyboard_ideas_and_images st scene_text textResult (.failure err) =
        ⟨.error 500, none, true, true⟩) := by
  constructor
  · intro hpre
    unfold generate_moodboard_ideas_and_images
    rw [if_neg hpre, htext]
    rfl
  · intro hpre
    unfold generate_storyboard_ideas_and_images
    rw [if_neg hpre, htext]
    rfl

/-- C4 (witness): a concrete project with a chosen theme and a concrete
scene: the text phase succeeds, the image phase returns the error
dictionary, and both endpoints answer 500 with nothing persisted. -/
theorem c4_witness :
    containsErrorMarker "shot ideas" = false ∧
    ¬ ((ProjectState.mk "p" "p" "Concept" { chosen_theme := "noir" } [] {} {}
          none []).concept.chosen_theme = "" ∧
        (ProjectState.mk "p" "p" "Concept" { chosen_theme := "noir" } [] {} {}
          none []).concept.seed_idea = "" ∧
        (ProjectState.mk "p" "p" "Concept" { chosen_theme := "noir" } [] {} {}
          none []).concept.final_synopsis = "") ∧
    generate_moodboard_ideas_and_images
        (ProjectState.mk "p" "p" "Concept" { chosen_theme := "noir" } [] {} {}
          none [])
        "shot ideas" (.failure "boom") = ⟨.error 500, none, true, true⟩ ∧
    pyStrip "INT. LAB - NIGHT".data ≠ [] ∧
    generate_storyboard_ideas_and_images
        (ProjectState.mk "p" "p" "Concept" { chosen_theme := "noir" } [] {} {}
          none [])
        "INT. LAB - NIGHT" "shot ideas" (.failure "boom") =
      ⟨.error 500, none, true, true⟩ :=
  ⟨by decide, by decide,
    (c4_theorem
        (ProjectState.mk "p" "p" "Concept" { chosen_theme := "noir" } [] {} {}
          none [])
        "shot ideas" "boom" "INT. LAB - NIGHT" (by decide)).1 (by decide),
    by decide,
    (c4_theorem
        (ProjectState.mk "p" "p" "Concept" { chosen_theme := "noir" } [] {} {}
          none [])
        "shot ideas" "boom" "INT. LAB - NIGHT" (by decide)).2 (by decide)⟩

/-! ## Claim C9 -/

/-- C9 (counterexample): a NON-EMPTY result sequence consisting entirely of
error-typed parts is not a failure to the caller: the generator returns the
list as-is, the caller's `"error" in image_parts` test does not fire, and
the all-error sequence is persisted into the document — contradicting
"the calling generation operation detects it, surfaces a failure, and
persists nothing". -/
theorem c9_counterexample :
    generate_image_from_prompt (some [RawPart.inlineData "blob" false]) =
      ImageResult.parts [⟨"error", "Failed to process image: blob"⟩] ∧
    imageCallFailed
      (ImageResult.parts [⟨"error", "Failed to process image: blob"⟩]) = false ∧
    (generate_moodboard_ideas_and_images
        (ProjectState.mk "p" "p" "Concept" { chosen_theme := "noir" } [] {} {}
          none [])
        "ideas"
        (ImageResult.parts [⟨"error", "Failed to process image: blob"⟩])).persisted =
      some (ProjectState.mk "p" "p" "Concept" { chosen_theme := "noir" } [] {}
        { moodboard_ideas_md := "ideas",
          moodboard_images := [⟨"error", "Failed to process image: blob"⟩] }
        none []) :=
  ⟨by decide, by decide, by decide⟩

/-- C9 (amended): an EMPTY result sequence is indeed a failure condition —
the generator converts it (and a structurally invalid response) into its
error dictionary, which the caller detects and surfaces without persisting
anything.  But a non-empty sequence consisting entirely of error-typed
parts is NOT detected: the caller persists it and returns it as success. -/
theorem c9_theorem (st : ProjectState) (textResult : String)
    (raws : List RawPart) (ps : List ContentPart) :
    (raws.filterMap processPart = [] →
      imageCallFailed (generate_image_from_prompt (some raws)) = true) ∧
    (imageCallFailed (generate_image_from_prompt none) = true) ∧
    (∀ err, (generate_moodboard_ideas_and_images st textResult
        (.failure err)).persisted = none) ∧
    (¬ (st.concept.chosen_theme = "" ∧ st.concept.seed_idea = "" ∧
        st.concept.final_synopsis = "") →
      containsErrorMarker textResult = false →
      ps ≠ [] → (∀ p ∈ ps, p.type = "error") →
      (generate_moodboard_ideas_and_images st textResult (.parts ps)).persisted =
        some { st with pre_production := { st.pre_production with
                 moodboard_ideas_md := textResult,
                 moodboard_images := ps } } ∧
      (generate_moodboard_ideas_and_images st textResult (.parts ps)).response =
        .ok ps) := by
  refine ⟨?_, rfl, ?_, ?_⟩
  · intro h
    unfold generate_image_from_prompt
    simp only [h]
    rfl
  · intro err
    unfold generate_moodboard_ideas_and_images
    by_cases hpre : st.concept.chosen_theme = "" ∧ st.concept.seed_idea = "" ∧
        st.concept.final_synopsis = ""
    · rw [if_pos hpre]
    · rw [if_neg hpre]
      cases h : containsErrorMarker textResult <;> rfl
  · intro hpre htext _ _
    unfold generate_moodboard_ideas_and_images
    rw [if_neg hpre, htext]
    exact ⟨rfl, rfl⟩

/-- C9 (witness): the amended theorem at a concrete state and a concrete
one-element all-error parts list. -/
theorem c9_witness :
    ([RawPart.other].filterMap processPart = []) ∧
    imageCallFailed (generate_image_from_prompt (some [RawPart.other])) = true ∧
    ¬ ((ProjectState.mk "p" "p" "Concept" { chosen_theme := "noir" } [] {} {}
          none []).concept.chosen_theme = "" ∧
        (ProjectState.mk "p" "p" "Concept" { chosen_theme := "noir" } [] {} {}
          none []).concept.seed_idea = "" ∧
        (ProjectState.mk "p" "p" "Concept" { chosen_theme := "noir" } [] {} {}
          none []).concept.final_synopsis = "") ∧
    containsErrorMarker "ideas" = false ∧
    ([(⟨"error", "bad"⟩ : ContentPart)] ≠ []) ∧
    (∀ p ∈ [(⟨"error", "bad"⟩ : ContentPart)], p.type = "error") ∧
    (generate_moodboard_ideas_and_images
        (ProjectState.mk "p" "p" "Concept" { chosen_theme := "noir" } [] {} {}
          none [])
        "ideas" (.parts [⟨"error", "bad"⟩])).persisted =
      some { (ProjectState.mk "p" "p" "Concept" { chosen_theme := "noir" } [] {} {}
          none []) with
        pre_production := { moodboard_ideas_md := "ideas",
                            moodboard_images := [⟨"error", "bad"⟩] } } :=
  ⟨by decide,
    (c9_theorem
        (ProjectState.mk "p" "p" "Concept" { chosen_theme := "noir" } [] {} {}
          none [])
        "ideas" [RawPart.other] [⟨"error", "bad"⟩]).1 (by decide),
    by decide, by decide, by decide, by decide,
    ((c9_theorem
        (ProjectState.mk "p" "p" "Concept" { chosen_theme := "noir" } [] {} {}
          none [])
        "ideas" [RawPart.other] [⟨"error", "bad"⟩]).2.2.2 (by decide) (by decide)
      (by decide) (by decide)).1⟩

/-! ## Character-level lemmas for name normalisation -/

theorem char_toNat_ofNat_valid (n : Nat) (h : n.isValidChar) :
    (Char.ofNat n).toNat = n := by
  simp only [Char.ofNat, h, dif_pos, Char.ofNatAux, Char.toNat]
  cases h with
  | inl h2 => simp [UInt32.toNat, UInt32.ofNatCore]
  | inr h2 => simp [UInt32.toNat, UInt32.ofNatCore]

theorem isWs_false_of_ge (c : Char) (h : 33 ≤ c.toNat) : isWs c = false := by
  simp only [isWs, Bool.or_eq_false_iff, decide_eq_false_iff_not]
  omega

theorem lowerChar_toNat (c : Char) (h : 65 ≤ c.toNat ∧ c.toNat ≤ 90) :
    (lowerChar c).toNat = c.toNat + 32 := by
  unfold lowerChar
  rw [if_pos h]
  exact char_toNat_ofNat_valid _ (Or.inl (by omega))

theorem lowerChar_eq_self (c : Char) (h : ¬ (65 ≤ c.toNat ∧ c.toNat ≤ 90)) :
    lowerChar c = c := by
  unfold lowerChar
  rw [if_neg h]

theorem lowerChar_lowerChar (c : Char) : lowerChar (lowerChar c) = lowerChar c := by
  by_cases h : 65 ≤ c.toNat ∧ c.toNat ≤ 90
  · have h1 := lowerChar_toNat c h
    apply lowerChar_eq_self
    rw [h1]
    omega
  · rw [lowerChar_eq_self c h, lowerChar_eq_self c h]

theorem isWs_lowerChar (c : Char) : isWs (lowerChar c) = isWs c := by
  by_cases h : 65 ≤ c.toNat ∧ c.toNat ≤ 90
  · rw [isWs_false_of_ge c (by omega), isWs_false_of_ge]
    rw [lowerChar_toNat c h]
    omega
  · rw [lowerChar_eq_self c h]

theorem lowerChar_ne_space (c : Char) (h : c ≠ ' ') : lowerChar c ≠ ' ' := by
  by_cases hu : 65 ≤ c.toNat ∧ c.toNat ≤ 90
  · intro hc
    have h1 := lowerChar_toNat c hu
    rw [hc] at h1
    have h32 : (' ' : Char).toNat = 32 := rfl
    rw [h32] at h1
    omega
  · rw [lowerChar_eq_self c hu]
    exact h

theorem replChar_ne_space (c : Char) : replChar c ≠ ' ' := by
  unfold replChar
  by_cases h : c = ' '
  · rw [if_pos h]
    decide
  · rw [if_neg h]
    exact h

theorem replChar_eq_self (c : Char) (h : c ≠ ' ') : replChar c = c := by
  unfold replChar
  rw [if_neg h]

theorem not_space_of_not_isWs (c : Char) (h : isWs c = false) : c ≠ ' ' := by
  intro hc
  rw [hc] at h
  have : isWs ' ' = true := by decide
  rw [this] at h
  exact Bool.noConfusion h

/-! ## List-level lemmas for `pyStrip` -/

theorem head?_dropWhile (p : Char → Bool) :
    ∀ (l : List Char) c, (l.dropWhile p).head? = some c → p c = false := by
  intro l
  induction l with
  | nil => intro c h; simp [List.dropWhile] at h
  | cons a t ih =>
      intro c h
      by_cases hp : p a = true
      · rw [List.dropWhile_cons, if_pos hp] at h
        exact ih c h
      · rw [List.dropWhile_cons, if_neg hp] at h
        simp only [List.head?_cons, Option.some.injEq] at h
        rw [← h]
        exact Bool.not_eq_true _ ▸ hp

theorem getLast?_dropWhile_of_ne_nil (p : Char → Bool) :
    ∀ l : List Char, l.dropWhile p ≠ [] →
      (l.dropWhile p).getLast? = l.getLast? := by
  intro l
  induction l with
  | nil => intro h; exact absurd rfl h
  | cons a t ih =>
      intro h
      by_cases hp : p a = true
      · rw [List.dropWhile_cons, if_pos hp] at h ⊢
        rw [ih h]
        cases t with
        | nil => exact absurd rfl h
        | cons b t' => rw [List.getLast?_cons_cons]
      · rw [List.dropWhile_cons, if_neg hp]

theorem pyStrip_head_not_ws (l : List Char) (c : Char)
    (h : (pyStrip l).head? = some c) : isWs c = false := by
  unfold pyStrip at h
  rw [List.head?_reverse] at h
  have hne : ((l.dropWhile isWs).reverse.dropWhile isWs) ≠ [] := by
    intro hnil
    rw [hnil] at h
    simp at h
  rw [getLast?_dropWhile_of_ne_nil isWs _ hne, List.getLast?_reverse] at h
  exact head?_dropWhile isWs l c h

theorem pyStrip_getLast_not_ws (l : List Char) (c : Char)
    (h : (pyStrip l).getLast? = some c) : isWs c = false := by
  unfold pyStrip at h
  rw [List.getLast?_reverse] at h
  exact head?_dropWhile isWs _ c h

theorem dropWhile_eq_self_of_head (p : Char → Bool) (l : List Char)
    (h : ∀ c, l.head? = some c → p c = false) : l.dropWhile p = l := by
  cases l with
  | nil => rfl
  | cons a t =>
      rw [List.dropWhile_cons, if_neg]
      rw [h a rfl]
      exact Bool.noConfusion

theorem pyStrip_eq_self (l : List Char)
    (h1 : ∀ c, l.head? = some c → isWs c = false)
    (h2 : ∀ c, l.getLast? = some c → isWs c = false) : pyStrip l = l := by
  unfold pyStrip
  rw [dropWhile_eq_self_of_head _ _ h1]
  rw [dropWhile_eq_self_of_head _ _
    (fun c hc => h2 c (by rwa [List.head?_reverse] at hc))]
  exact List.reverse_reverse l

/-! ## Normalisation lemmas -/

theorem mem_normalizeName_ne_space (l : List Char) :
    ∀ c ∈ normalizeName l, c ≠ ' ' := by
  intro c hc
  unfold normalizeName lowerStr replSpaces at hc
  rcases List.mem_map.1 hc with ⟨d, hd, rfl⟩
  rcases List.mem_map.1 hd with ⟨e, _, rfl⟩
  exact lowerChar_ne_space _ (replChar_ne_space e)

theorem replSpaces_eq_self (l : List Char) (h : ∀ c ∈ l, c ≠ ' ') :
    replSpaces l = l := by
  induction l with
  | nil => rfl
  | cons a t ih =>
      unfold replSpaces at ih ⊢
      rw [List.map_cons, replChar_eq_self a (h a (List.mem_cons_self a t)),
        ih (fun c hc => h c (List.mem_cons_of_mem a hc))]

theorem lowerStr_lowerStr (l : List Char) : lowerStr (lowerStr l) = lowerStr l := by
  induction l with
  | nil => rfl
  | cons a t ih =>
      unfold lowerStr at ih ⊢
      rw [List.map_cons, List.map_cons, lowerChar_lowerChar, ih]

theorem pyStrip_normalizeName (l : List Char) :
    pyStrip (normalizeName l) = normalizeName l := by
  apply pyStrip_eq_self
  · intro c hc
    unfold normalizeName lowerStr replSpaces at hc
    rw [List.head?_map, List.head?_map] at hc
    rcases ho : (pyStrip l).head? with _ | d
    · rw [ho] at hc
      simp at hc
    · rw [ho] at hc
      simp only [Option.map_some'] at hc
      have hd := pyStrip_head_not_ws l d ho
      have hcd : c = lowerChar (replChar d) := (Option.some.inj hc).symm
      rw [hcd, isWs_lowerChar, replChar_eq_self d (not_space_of_not_isWs d hd)]
      exact hd
  · intro c hc
    unfold normalizeName lowerStr replSpaces at hc
    rw [List.getLast?_map, List.getLast?_map] at hc
    rcases ho : (pyStrip l).getLast? with _ | d
    · rw [ho] at hc
      simp at hc
    · rw [ho] at hc
      simp only [Option.map_some'] at hc
      have hd := pyStrip_getLast_not_ws l d ho
      have hcd : c = lowerChar (replChar d) := (Option.some.inj hc).symm
      rw [hcd, isWs_lowerChar, replChar_eq_self d (not_space_of_not_isWs d hd)]
      exact hd

theorem normalizeName_idem (l : List Char) :
    normalizeName (normalizeName l) = normalizeName l := by
  calc normalizeName (normalizeName l)
      = lowerStr (replSpaces (pyStrip (normalizeName l))) := rfl
    _ = lowerStr (replSpaces (normalizeName l)) := by rw [pyStrip_normalizeName]
    _ = lowerStr (normalizeName l) := by
          rw [replSpaces_eq_self _ (mem_normalizeName_ne_space l)]
    _ = normalizeName l := lowerStr_lowerStr _

theorem lowerChar_replChar_comm (c : Char) :
    lowerChar (replChar c) = replChar (lowerChar c) := by
  by_cases h : c = ' '
  · subst h
    decide
  · rw [replChar_eq_self c h, replChar_eq_self _ (lowerChar_ne_space c h)]

theorem lowerStr_replSpaces_comm (l : List Char) :
    lowerStr (replSpaces l) = replSpaces (lowerStr l) := by
  induction l with
  | nil => rfl
  | cons a t ih =>
      unfold lowerStr replSpaces at ih ⊢
      rw [List.map_cons, List.map_cons, List.map_cons, List.map_cons,
        lowerChar_replChar_comm, ih]

/-! ## Claim C5 -/

/-- C5 (counterexample): `"ab"` and `"Ab"` differ only in case and
normalise to the same cleaned name, but creating `"Ab"` when `"ab"` exists
SUCCEEDS: the state-file path embeds the display name itself as the
directory component, so the case-insensitive collision the claim promises
does not happen. -/
theorem c5_counterexample :
    normalizeName "Ab".data = normalizeName "ab".data ∧
    create_project_check [stateFilePath (pyStrip "ab".data)] "Ab".data =
      .ok (stateFilePath (pyStrip "Ab".data)) ∧
    stateFilePath (pyStrip "Ab".data) ≠ stateFilePath (pyStrip "ab".data) :=
  ⟨by decide, by decide, by decide⟩

/-- C5 (amended): normalisation is idempotent, and two display names that
agree after stripping and lowercasing normalise identically.  But the
create-time collision check compares full state-file paths whose directory
component is the stripped display name verbatim, so only names with EQUAL
stripped forms (differing in surrounding whitespace) collide with
`AlreadyExists`; names differing in case resolve to different paths and do
not collide. -/
theorem c5_theorem (n1 n2 : List Char) (fs : List (List (List Char))) :
    (normalizeName (normalizeName n1) = normalizeName n1) ∧
    (lowerStr (pyStrip n1) = lowerStr (pyStrip n2) →
      normalizeName n1 = normalizeName n2) ∧
    (pyStrip n2 = pyStrip n1 → pyStrip n1 ≠ [] →
      fs.contains (stateFilePath (pyStrip n1)) = true →
      create_project_check fs n2 = .error .alreadyExists) := by
  refine ⟨normalizeName_idem n1, ?_, ?_⟩
  · intro h
    show lowerStr (replSpaces (pyStrip n1)) = lowerStr (replSpaces (pyStrip n2))
    rw [lowerStr_replSpaces_comm, lowerStr_replSpaces_comm, h]
  · intro hstrip hne hfs
    unfold create_project_check
    rw [hstrip, if_neg hne]
    show (if fs.contains (stateFilePath (pyStrip n1)) = true then
        Except.error CreateError.alreadyExists
      else Except.ok (stateFilePath (pyStrip n1))) = Except.error CreateError.alreadyExists
    rw [hfs]
    rfl

/-- C5 (witness): `" ab "` collides with an existing `"ab"` (whitespace
difference only). -/
theorem c5_witness :
    pyStrip " ab ".data = pyStrip "ab".data ∧
    pyStrip "ab".data ≠ [] ∧
    [stateFilePath (pyStrip "ab".data)].contains
      (stateFilePath (pyStrip "ab".data)) = true ∧
    create_project_check [stateFilePath (pyStrip "ab".data)] " ab ".data =
      .error .alreadyExists :=
  ⟨by decide, by decide, by decide,
    ( c5_theorem "ab".data " ab ".data [stateFilePath (pyStrip "ab".data)]).2.2
      (by decide) (by decide) (by decide)⟩

/-! ## takeLast and JArr lemmas -/

theorem toList_jarr (l : List Json) : (jarr l).toList = l := by
  induction l with
  | nil => rfl
  | cons v rest ih => rw [jarr, JArr.toList, ih]

theorem jarr_toList : ∀ a : JArr, jarr a.toList = a
  | .nil => rfl
  | .cons v rest => by rw [JArr.toList, jarr, jarr_toList rest]

theorem takeLast_eq_of_le {l : List α} {n : Nat} (h : l.length ≤ n) :
    takeLast n l = l := by
  simp [takeLast, Nat.sub_eq_zero_of_le h]

theorem length_takeLast (n : Nat) (l : List α) :
    (takeLast n l).length = min n l.length := by
  simp [takeLast]
  omega

theorem takeLast_append_one (n : Nat) (l : List α) (m : α) :
    takeLast (n + 1) (l ++ [m]) = takeLast n l ++ [m] := by
  simp only [takeLast, List.length_append, List.length_cons, List.length_nil]
  rw [show l.length + (0 + 1) - (n + 1) = l.length - n from by omega]
  rw [List.drop_append_of_le_length (Nat.sub_le _ _)]

theorem take_append_take_inner (n : Nat) (x y : List α) :
    (x ++ y.take n).take n = (x ++ y).take n := by
  rw [List.take_append_eq_append_take, List.take_append_eq_append_take]
  congr 1
  rw [List.take_take, Nat.min_eq_left (Nat.sub_le n x.length)]

theorem takeLast_takeLast_append (n : Nat) (l l2 : List α) :
    takeLast n (takeLast n l ++ l2) = takeLast n (l ++ l2) := by
  show (takeLast n l ++ l2).rtake n = (l ++ l2).rtake n
  rw [List.rtake_eq_reverse_take_reverse, List.rtake_eq_reverse_take_reverse]
  rw [List.reverse_append, List.reverse_append]
  have hrev : (takeLast n l).reverse = l.reverse.take n := by
    show (List.rtake l n).reverse = l.reverse.take n
    rw [List.rtake_eq_reverse_take_reverse, List.reverse_reverse]
  rw [hrev, take_append_take_inner]

theorem takeLast_map (f : α → β) (n : Nat) (l : List α) :
    takeLast n (l.map f) = (takeLast n l).map f := by
  simp only [takeLast, List.length_map]
  exact (List.map_drop f l _).symm

theorem foldl_trim_eq {α : Type} (ms : List α) :
    ∀ L : List α, ms ≠ [] →
      ms.foldl (fun acc m => takeLast 50 acc ++ [m]) L = takeLast 51 (L ++ ms) := by
  induction ms with
  | nil => intro L hms; exact absurd rfl hms
  | cons m ms' ih =>
      intro L _
      rw [List.foldl_cons]
      cases ms' with
      | nil =>
          rw [List.foldl_nil]
          exact (takeLast_append_one 50 L m).symm
      | cons m2 ms'' =>
          rw [ih _ (by simp)]
          rw [show takeLast 50 L ++ [m] = takeLast 51 (L ++ [m]) from
            (takeLast_append_one 50 L m).symm]
          rw [takeLast_takeLast_append]
          simp [List.append_assoc]

/-! ## Repeated saves -/

theorem save_project_eq (d : JObj) (n now : String) (l : JArr)
    (h1 : lookupKey d "project_name" = some (Json.str n)) (h2 : n ≠ "")
    (h3 : lookupKey d "log" = some (Json.arr l)) :
    save_project now d = .ok (setKey (setKey d "last_saved" (Json.str now)) "log"
      (Json.arr (jarr (takeLast 50 l.toList ++ [Json.str (savedMsg now)])))) := by
  have h3' : lookupKey (setKey d "last_saved" (Json.str now)) "log" =
      some (Json.arr l) := by
    rw [lookupKey_setKey_ne _ _ _ _ (by decide)]
    exact h3
  unfold save_project
  simp only [h1, h3']
  rw [if_neg h2]

theorem save_many_spec (times : List String) : ∀ (d : JObj) (n : String) (l : JArr),
    lookupKey d "project_name" = some (Json.str n) → n ≠ "" →
    lookupKey d "log" = some (Json.arr l) →
    lookupKey (save_many times d) "project_name" = some (Json.str n) ∧
    lookupKey (save_many times d) "log" = some (Json.arr (jarr
      (times.foldl (fun acc t => takeLast 50 acc ++ [Json.str (savedMsg t)])
        l.toList))) := by
  induction times with
  | nil =>
      intro d n l h1 _ h3
      refine ⟨h1, ?_⟩
      rw [List.foldl_nil, jarr_toList]
      exact h3
  | cons t ts ih =>
      intro d n l h1 h2 h3
      have hsm : save_many (t :: ts) d =
          save_many ts (setKey (setKey d "last_saved" (Json.str t)) "log"
            (Json.arr (jarr (takeLast 50 l.toList ++ [Json.str (savedMsg t)])))) := by
        unfold save_many
        rw [List.foldl_cons, save_project_eq d n t l h1 h2 h3]
      rw [hsm]
      have k1 : lookupKey (setKey (setKey d "last_saved" (Json.str t)) "log"
          (Json.arr (jarr (takeLast 50 l.toList ++ [Json.str (savedMsg t)]))))
          "project_name" = some (Json.str n) := by
        rw [lookupKey_setKey_ne _ _ _ _ (by decide),
          lookupKey_setKey_ne _ _ _ _ (by decide)]
        exact h1
      have k3 := lookupKey_setKey_self (setKey d "last_saved" (Json.str t)) "log"
        (Json.arr (jarr (takeLast 50 l.toList ++ [Json.str (savedMsg t)])))
      rcases ih _ n _ k1 h2 k3 with ⟨g1, g2⟩
      refine ⟨g1, ?_⟩
      rw [g2, toList_jarr, List.foldl_cons]

/-! ## Claim C3 -/

/-- C3 (counterexample): the claim says the log has length at most 50 after
any save.  Saving a document whose log already holds 50 entries yields a
log of 51 entries: `save_project` trims to the last 50 FIRST and then
appends its own entry. -/
theorem c3_counterexample :
    (save_project "T" (stateToJson
      { project_name := "p", cleaned_name := "p",
        log := List.replicate 50 "e" })).toOption.map logLenOf = some 51 ∧
    ¬ (51 ≤ 50) :=
  ⟨by decide, by decide⟩

/-- C3 (amended): after any save the log has at most 51 entries (trim to
the last 50, then append the save entry); and any run of more than 50
consecutive saves leaves exactly 51 entries — the most recent 51 log
messages in order, oldest evicted first. -/
theorem c3_theorem (d : JObj) (n now : String) (l : JArr) (times : List String)
    (h1 : lookupKey d "project_name" = some (Json.str n)) (h2 : n ≠ "")
    (h3 : lookupKey d "log" = some (Json.arr l)) :
    (∀ S, save_project now d = .ok S → logLenOf S ≤ 51) ∧
    (51 ≤ times.length →
      lookupKey (save_many times d) "log" = some (Json.arr (jarr (takeLast 51
        (l.toList ++ times.map (fun t => Json.str (savedMsg t)))))) ∧
      logLenOf (save_many times d) = 51) := by
  constructor
  · intro S hS
    rw [save_project_eq d n now l h1 h2 h3] at hS
    injection hS with hS
    subst hS
    simp only [logLenOf, lookupKey_setKey_self]
    rw [toList_jarr, List.length_append]
    have := length_takeLast 50 l.toList
    simp only [List.length_cons, List.length_nil]
    omega
  · intro htimes
    rcases save_many_spec times d n l h1 h2 h3 with ⟨_, g2⟩
    have hne : times.map (fun t => Json.str (savedMsg t)) ≠ [] := by
      intro h
      rw [List.map_eq_nil_iff] at h
      rw [h] at htimes
      simp at htimes
    have hfold : times.foldl (fun acc t => takeLast 50 acc ++ [Json.str (savedMsg t)])
        l.toList = takeLast 51 (l.toList ++ times.map (fun t => Json.str (savedMsg t))) := by
      have hf := foldl_trim_eq (times.map (fun t => Json.str (savedMsg t))) l.toList hne
      rw [List.foldl_map] at hf
      exact hf
    refine ⟨by rw [g2, hfold], ?_⟩
    simp only [logLenOf, g2, hfold]
    rw [toList_jarr, length_takeLast, List.length_append, List.length_map]
    omega

/-- C3 (witness): 51 consecutive saves of a one-entry-log project leave
exactly 51 log entries. -/
theorem c3_witness :
    lookupKey (stateToJson { project_name := "p", cleaned_name := "p", log := ["a"] })
      "project_name" = some (Json.str "p") ∧
    ("p" : String) ≠ "" ∧
    lookupKey (stateToJson { project_name := "p", cleaned_name := "p", log := ["a"] })
      "log" = some (Json.arr (jarr [Json.str "a"])) ∧
    51 ≤ (List.replicate 51 "t").length ∧
    logLenOf (save_many (List.replicate 51 "t")
      (stateToJson { project_name := "p", cleaned_name := "p", log := ["a"] })) = 51 :=
  ⟨rfl, by decide, rfl, by decide,
    ((c3_theorem
        (stateToJson { project_name := "p", cleaned_name := "p", log := ["a"] })
        "p" "T" (jarr [Json.str "a"]) (List.replicate 51 "t")
        rfl (by decide) rfl).2 (by decide)).2⟩

/-! ## Merge is the identity on schema-complete documents -/

theorem setKey_eq_of_lookup (d : JObj) (k : String) (v : Json)
    (h : lookupKey d k = some v) : setKey d k v = d := by
  induction d using JObj.recAux with
  | hnil => simp [lookupKey] at h
  | hcons k0 w rest ih =>
      by_cases h0 : k0 = k
      · subst h0
        simp only [lookupKey, beq_self_eq_true, if_true, Option.some.injEq] at h
        simp [setKey, h]
      · simp only [lookupKey, beq_iff_eq, h0, if_false] at h
        simp [setKey, h0, ih h]

theorem merge_conforms : ∀ (src dest : JObj), conforms src dest = true →
    merge_dict src dest = dest
  | .nil, dest, _ => rfl
  | .cons key (Json.obj so) rest, dest, h => by
      simp only [conforms, Bool.and_eq_true] at h
      show merge_dict rest (setKey dest key (Json.obj (merge_dict so
        (match lookupKey dest key with
         | some (Json.obj o) => o
         | some _ => .nil
         | none => .nil)))) = dest
      rcases hl : lookupKey dest key with _ | w
      · rw [hl] at h
        exact absurd h.1 (by simp)
      · cases w with
        | obj o =>
            simp only [hl] at h ⊢
            rw [merge_conforms so o h.1,
              setKey_eq_of_lookup dest key (Json.obj o) hl]
            exact merge_conforms rest dest h.2
        | str s => rw [hl] at h; exact absurd h.1 (by simp)
        | num n => rw [hl] at h; exact absurd h.1 (by simp)
        | bool b => rw [hl] at h; exact absurd h.1 (by simp)
        | null => rw [hl] at h; exact absurd h.1 (by simp)
        | arr a => rw [hl] at h; exact absurd h.1 (by simp)
  | .cons key (Json.arr a) rest, dest, h => by
      simp only [conforms, Bool.and_eq_true] at h
      show merge_dict rest
        (match lookupKey dest key with
         | none => setKey dest key (Json.arr a)
         | some (Json.arr _) => dest
         | some _ => setKey dest key (Json.arr .nil)) = dest
      rcases hl : lookupKey dest key with _ | w
      · rw [hl] at h
        exact absurd h.1 (by simp)
      · cases w with
        | arr b =>
            simp only [hl] at h ⊢
            exact merge_conforms rest dest h.2
        | obj o => rw [hl] at h; exact absurd h.1 (by simp)
        | str s => rw [hl] at h; exact absurd h.1 (by simp)
        | num n => rw [hl] at h; exact absurd h.1 (by simp)
        | bool b => rw [hl] at h; exact absurd h.1 (by simp)
        | null => rw [hl] at h; exact absurd h.1 (by simp)
  | .cons key (Json.str s) rest, dest, h => by
      simp only [conforms, Bool.and_eq_true] at h
      show merge_dict rest
        (match lookupKey dest key with
         | none => setKey dest key (Json.str s)
         | some _ => dest) = dest
      rcases hl : lookupKey dest key with _ | w
      · rw [hl] at h
        exact absurd h.1 (by simp)
      · simp only [hl] at h ⊢
        exact merge_conforms rest dest h.2
  | .cons key (Json.num m) rest, dest, h => by
      simp only [conforms, Bool.and_eq_true] at h
      show merge_dict rest
        (match lookupKey dest key with
         | none => setKey dest key (Json.num m)
         | some _ => dest) = dest
      rcases hl : lookupKey dest key with _ | w
      · rw [hl] at h
        exact absurd h.1 (by simp)
      · simp only [hl] at h ⊢
        exact merge_conforms rest dest h.2
  | .cons key (Json.bool b) rest, dest, h => by
      simp only [conforms, Bool.and_eq_true] at h
      show merge_dict rest
        (match lookupKey dest key with
         | none => setKey dest key (Json.bool b)
         | some _ => dest) = dest
      rcases hl : lookupKey dest key with _ | w
      · rw [hl] at h
        exact absurd h.1 (by simp)
      · simp only [hl] at h ⊢
        exact merge_conforms rest dest h.2
  | .cons key Json.null rest, dest, h => by
      simp only [conforms, Bool.and_eq_true] at h
      show merge_dict rest
        (match lookupKey dest key with
         | none => setKey dest key Json.null
         | some _ => dest) = dest
      rcases hl : lookupKey dest key with _ | w
      · rw [hl] at h
        exact absurd h.1 (by simp)
      · simp only [hl] at h ⊢
        exact merge_conforms rest dest h.2

/-! ## Claim C2 -/

theorem save_project_stateToJson (D : ProjectState) (now : String)
    (hname : D.project_name ≠ "") :
    save_project now (stateToJson D) =
      .ok (stateToJson { D with
                         last_saved := some now,
                         log := takeLast 50 D.log ++ [savedMsg now] }) := by
  have hmap : (takeLast 50 D.log ++ [savedMsg now]).map Json.str =
      takeLast 50 (D.log.map Json.str) ++ [Json.str (savedMsg now)] := by
    rw [List.map_append, takeLast_map]
    rfl
  have h1 : lookupKey (stateToJson D) "project_name" =
      some (Json.str D.project_name) := rfl
  have h3 : lookupKey (setKey (stateToJson D) "last_saved" (Json.str now)) "log" =
      some (Json.arr (jarr (D.log.map Json.str))) := rfl
  unfold save_project
  simp only [h1, h3]
  rw [if_neg hname]
  rw [toList_jarr]
  rw [← hmap]
  rfl

theorem load_project_stateToJson (S : ProjectState)
    (hclean : S.cleaned_name = normalizeString S.project_name) :
    load_project S.project_name (stateToJson S) =
      .ok (stateToJson { S with
                         log := takeLast 50 S.log ++ [loadedMsg S.project_name] }) := by
  have hmap : (takeLast 50 S.log ++ [loadedMsg S.project_name]).map Json.str =
      takeLast 50 (S.log.map Json.str) ++ [Json.str (loadedMsg S.project_name)] := by
    rw [List.map_append, takeLast_map]
    rfl
  simp only [load_project]
  rw [← hclean]
  rw [setKey_eq_of_lookup (stateToJson S) "project_name" (Json.str S.project_name) rfl]
  rw [setKey_eq_of_lookup (stateToJson S) "cleaned_name" (Json.str S.cleaned_name) rfl]
  rw [merge_conforms default_project_state (stateToJson S) (by rfl)]
  simp only [show lookupKey (stateToJson S) "log" =
    some (Json.arr (jarr (S.log.map Json.str))) from rfl]
  rw [toList_jarr, ← hmap]
  rfl

/-- C2: loading a project by the display name of the document returned by
`save` yields that document with every field unchanged except the log,
which gains exactly one "loaded" entry; when the saved log is over the
50-entry cap its oldest entry is evicted first ("respecting the 50-entry
cap"), and below the cap the log is literally `saved.log ++ [loaded]`. -/
theorem c2_theorem (D : ProjectState) (now : String)
    (hname : D.project_name ≠ "")
    (hclean : D.cleaned_name = normalizeString D.project_name) :
    ∃ S : ProjectState,
      save_project now (stateToJson D) = .ok (stateToJson S) ∧
      S = { D with
            last_saved := some now,
            log := takeLast 50 D.log ++ [savedMsg now] } ∧
      load_project S.project_name (stateToJson S) =
        .ok (stateToJson { S with
          log := takeLast 50 S.log ++ [loadedMsg S.project_name] }) ∧
      (S.log.length ≤ 50 →
        takeLast 50 S.log ++ [loadedMsg S.project_name] =
          S.log ++ [loadedMsg S.project_name]) := by
  refine ⟨{ D with
            last_saved := some now,
            log := takeLast 50 D.log ++ [savedMsg now] },
    save_project_stateToJson D now hname, rfl, ?_, ?_⟩
  · exact load_project_stateToJson _ hclean
  · intro hlen
    rw [takeLast_eq_of_le hlen]

/-- C2 (witness): a concrete one-log-entry project: saving then loading by
the saved display name returns the saved document plus one "loaded"
entry. -/
theorem c2_witness :
    ("p" : String) ≠ "" ∧
    ("p" : String) = normalizeString "p" ∧
    (∃ S : ProjectState,
      save_project "T"
        (stateToJson { project_name := "p", cleaned_name := "p", log := ["a"] }) =
        .ok (stateToJson S) ∧
      S = { ({ project_name := "p", cleaned_name := "p",
               log := ["a"] } : ProjectState) with
            last_saved := some "T",
            log := takeLast 50 ["a"] ++ [savedMsg "T"] } ∧
      load_project S.project_name (stateToJson S) =
        .ok (stateToJson { S with
          log := takeLast 50 S.log ++ [loadedMsg S.project_name] }) ∧
      (S.log.length ≤ 50 →
        takeLast 50 S.log ++ [loadedMsg S.project_name] =
          S.log ++ [loadedMsg S.project_name])) :=
  ⟨by decide, by decide,
    c2_theorem { project_name := "p", cleaned_name := "p", log := ["a"] } "T"
      (by decide) (by decide)⟩
